import Mathlib

/-!
Shallow embedding of the temporal feature/state engine and Monte Carlo season
simulator of the football-match-prediction repository
(src/football_bi/features.py and src/football_bi/simulation.py).

Team identifiers are strings, match dates are integers (days), Python floats
are modelled as real numbers, and the per-league team registries (Python dicts
with setdefault) are modelled as total functions from team name to state with
the default state for absent keys.  All dict/object mutations are embedded as
sequential functional updates in source order, which keeps the embedding
faithful even when the home and away keys coincide (Python would alias the
same object).
-/

namespace FootballBI

/-- Full-time result codes: H / D / A (features.py, simulation.py). -/
inductive MatchResult
  | H
  | D
  | A
deriving DecidableEq, Repr

/-- K_FACTOR = 20 (features.py line 9). -/
def kFactor : ℝ := 20

/-- HOME_ELO_ADVANTAGE = 60 (features.py line 10). -/
def homeEloAdvantage : ℝ := 60

/-- TeamState (features.py lines 13-22) and the identical SimTeamState
(simulation.py lines 16-25).  The two deques of maxlen 5 are lists with the
newest entry at the tail; `lastMatchDate` is `none` until the first match. -/
structure TeamState where
  elo : ℝ := 1500
  seasonMatches : ℕ := 0
  seasonPoints : ℕ := 0
  seasonGoalsFor : ℕ := 0
  seasonGoalsAgainst : ℕ := 0
  recentPoints : List ℤ := []
  recentGoalDiff : List ℤ := []
  lastMatchDate : Option ℤ := none

/-- Appending to a `deque(maxlen=5)`: keep the last 5 appended values,
evicting from the front. -/
def pushWindow (w : List ℤ) (x : ℤ) : List ℤ :=
  (w ++ [x]).drop ((w ++ [x]).length - 5)

/-- `_safe_mean` (features.py lines 25-26, simulation.py lines 28-29). -/
noncomputable def safeMean (values : List ℤ) : ℝ :=
  if values.isEmpty then 0 else (values.sum : ℝ) / values.length

/-- `_safe_ppg` (features.py lines 29-30, simulation.py lines 32-33). -/
noncomputable def safePpg (points played : ℕ) : ℝ :=
  if played = 0 then 0 else (points : ℝ) / played

/-- `_safe_gdpg` (features.py lines 33-34, simulation.py lines 36-37). -/
noncomputable def safeGdpg (goalsFor goalsAgainst played : ℕ) : ℝ :=
  if played = 0 then 0 else ((goalsFor : ℝ) - goalsAgainst) / played

/-- `_rest_days` (features.py lines 37-40): 7.0 when the team has no prior
match, else days since the last match. -/
noncomputable def restDays (state : TeamState) (matchDate : ℤ) : ℝ :=
  match state.lastMatchDate with
  | none => 7
  | some d => ((matchDate - d : ℤ) : ℝ)

/-- `_home_expected_score` (features.py lines 43-44) and `_expected_home`
(simulation.py lines 40-41). -/
noncomputable def homeExpectedScore (homeElo awayElo : ℝ) : ℝ :=
  1 / (1 + (10 : ℝ) ^ ((awayElo - (homeElo + homeEloAdvantage)) / 400))

/-- `_result_to_points` (features.py lines 47-52) / `_result_points`
(simulation.py lines 44-49). -/
def resultToPoints : MatchResult → ℕ × ℕ
  | .H => (3, 0)
  | .A => (0, 3)
  | .D => (1, 1)

/-- `_result_home_score` (features.py lines 55-60, simulation.py lines 52-57). -/
def resultHomeScore : MatchResult → ℝ
  | .H => 1
  | .A => 0
  | .D => 0.5

/-- `_reset_for_new_season` (features.py lines 63-71): blend Elo toward 1500,
clear season counters, both recency windows and the last-match date. -/
def resetForNewSeason (state : TeamState) : TeamState where
  elo := 0.75 * state.elo + 0.25 * 1500
  seasonMatches := 0
  seasonPoints := 0
  seasonGoalsFor := 0
  seasonGoalsAgainst := 0
  recentPoints := []
  recentGoalDiff := []
  lastMatchDate := none

/-- `_snapshot` (features.py lines 74-83, simulation.py lines 60-70): the
pre-match feature view of one team state as of a match date. -/
structure FeatureSnapshot where
  eloPre : ℝ
  matchesPlayedPre : ℝ
  pointsPerGamePre : ℝ
  goalDiffPerGamePre : ℝ
  recentPointsAvgPre : ℝ
  recentGoalDiffAvgPre : ℝ
  restDaysPre : ℝ

noncomputable def snapshot (state : TeamState) (matchDate : ℤ) : FeatureSnapshot where
  eloPre := state.elo
  matchesPlayedPre := (state.seasonMatches : ℝ)
  pointsPerGamePre := safePpg state.seasonPoints state.seasonMatches
  goalDiffPerGamePre := safeGdpg state.seasonGoalsFor state.seasonGoalsAgainst state.seasonMatches
  recentPointsAvgPre := safeMean state.recentPoints
  recentGoalDiffAvgPre := safeMean state.recentGoalDiff
  restDaysPre := restDays state matchDate

/-- One row of the cleaned match data consumed by `build_match_features` and
the simulator: league code, season code, season start year, match date (days),
teams, goals and full-time result. -/
structure MatchRow where
  leagueCode : String
  seasonCode : String
  seasonStartYear : ℤ
  matchDate : ℤ
  homeTeam : String
  awayTeam : String
  homeGoals : ℕ
  awayGoals : ℕ
  fullTimeResult : MatchResult
deriving DecidableEq

/-- Per-league team registry: a Python dict with `setdefault(team, TeamState())`
modelled as a total function that is the default state off the created keys. -/
def Teams := String → TeamState

/-- Pointwise update of one key of a registry, mirroring a mutation of the
object stored under that key. -/
def updateFn {α : Type} (f : String → α) (k : String) (g : α → α) : String → α :=
  fun t => if t = k then g (f t) else f t

/-- `update` of one team state for one played match: features.py lines
152-167 (home or away side) and `_update_state` (simulation.py lines 73-80). -/
def updateState (s : TeamState) (matchDate : ℤ) (gf ga points : ℕ) : TeamState :=
  { s with
    seasonMatches := s.seasonMatches + 1
    seasonPoints := s.seasonPoints + points
    seasonGoalsFor := s.seasonGoalsFor + gf
    seasonGoalsAgainst := s.seasonGoalsAgainst + ga
    recentPoints := pushWindow s.recentPoints (points : ℤ)
    recentGoalDiff := pushWindow s.recentGoalDiff ((gf : ℤ) - (ga : ℤ))
    lastMatchDate := some matchDate }

/-- The Elo update of both sides of a match: features.py lines 169-172 and
`_update_elo` (simulation.py lines 83-87).  The expected score is read from
both pre-update ratings first; the home rating is then mutated, then the away
rating. -/
noncomputable def applyEloSeq (states : Teams) (home away : String) (result : MatchResult) : Teams :=
  let expectedHome := homeExpectedScore (states home).elo (states away).elo
  let actualHome := resultHomeScore result
  let s1 := updateFn states home
    (fun s => { s with elo := s.elo + kFactor * (actualHome - expectedHome) })
  updateFn s1 away
    (fun s => { s with elo := s.elo + kFactor * ((1 - actualHome) - (1 - expectedHome)) })

/-- One output row of `build_match_features` (features.py lines 111-145):
the identifying columns, actual outcome labels, both sides' pre-match
snapshots and the home-minus-away diffs. -/
structure FeatureRow where
  leagueCode : String
  seasonCode : String
  matchDate : ℤ
  homeTeam : String
  awayTeam : String
  targetResult : MatchResult
  homeGoalsActual : ℝ
  awayGoalsActual : ℝ
  homeEloPre : ℝ
  awayEloPre : ℝ
  eloDiff : ℝ
  homeMatchesPlayedPre : ℝ
  awayMatchesPlayedPre : ℝ
  homePointsPerGamePre : ℝ
  awayPointsPerGamePre : ℝ
  ppgDiff : ℝ
  homeGoalDiffPerGamePre : ℝ
  awayGoalDiffPerGamePre : ℝ
  goalDiffPgDiff : ℝ
  homeRecentPointsAvgPre : ℝ
  awayRecentPointsAvgPre : ℝ
  recentPointsDiff : ℝ
  homeRecentGoalDiffAvgPre : ℝ
  awayRecentGoalDiffAvgPre : ℝ
  recentGoalDiffDiff : ℝ
  homeRestDaysPre : ℝ
  awayRestDaysPre : ℝ
  restDaysDiff : ℝ

/-- Assemble the emitted row from the two snapshots (features.py lines
111-145; diffs are home-minus-away). -/
noncomputable def mkFeatureRow (row : MatchRow) (home away : FeatureSnapshot) : FeatureRow where
  leagueCode := row.leagueCode
  seasonCode := row.seasonCode
  matchDate := row.matchDate
  homeTeam := row.homeTeam
  awayTeam := row.awayTeam
  targetResult := row.fullTimeResult
  homeGoalsActual := (row.homeGoals : ℝ)
  awayGoalsActual := (row.awayGoals : ℝ)
  homeEloPre := home.eloPre
  awayEloPre := away.eloPre
  eloDiff := home.eloPre - away.eloPre
  homeMatchesPlayedPre := home.matchesPlayedPre
  awayMatchesPlayedPre := away.matchesPlayedPre
  homePointsPerGamePre := home.pointsPerGamePre
  awayPointsPerGamePre := away.pointsPerGamePre
  ppgDiff := home.pointsPerGamePre - away.pointsPerGamePre
  homeGoalDiffPerGamePre := home.goalDiffPerGamePre
  awayGoalDiffPerGamePre := away.goalDiffPerGamePre
  goalDiffPgDiff := home.goalDiffPerGamePre - away.goalDiffPerGamePre
  homeRecentPointsAvgPre := home.recentPointsAvgPre
  awayRecentPointsAvgPre := away.recentPointsAvgPre
  recentPointsDiff := home.recentPointsAvgPre - away.recentPointsAvgPre
  homeRecentGoalDiffAvgPre := home.recentGoalDiffAvgPre
  awayRecentGoalDiffAvgPre := away.recentGoalDiffAvgPre
  recentGoalDiffDiff := home.recentGoalDiffAvgPre - away.recentGoalDiffAvgPre
  homeRestDaysPre := home.restDaysPre
  awayRestDaysPre := away.restDaysPre
  restDaysDiff := home.restDaysPre - away.restDaysPre

/-- The per-league loop state of `build_match_features` (features.py lines
91-92): the currently seen season code (`None` before the first row) and the
team registry. -/
structure LeagueState where
  currentSeason : Option String
  states : Teams

def initialLeagueState : LeagueState where
  currentSeason := none
  states := fun _ => {}

/-- The season-boundary check at the top of the loop body (features.py lines
95-99): when the season code changes, every registered state is regressed.
Regressing the default state is the identity, so mapping the regression over
the total registry is extensionally the mutation of the existing entries. -/
def seasonAdjustedStates (ls : LeagueState) (seasonCode : String) : Teams :=
  if some seasonCode = ls.currentSeason then ls.states
  else fun t => resetForNewSeason (ls.states t)

/-- The post-snapshot mutation block of one loop iteration (features.py lines
148-172): both counter/window/date updates, then the Elo pair update, in
source order. -/
noncomputable def applyMatchUpdates (states : Teams) (row : MatchRow) : Teams :=
  let hp := (resultToPoints row.fullTimeResult).1
  let ap := (resultToPoints row.fullTimeResult).2
  let s1 := updateFn states row.homeTeam
    (fun s => updateState s row.matchDate row.homeGoals row.awayGoals hp)
  let s2 := updateFn s1 row.awayTeam
    (fun s => updateState s row.matchDate row.awayGoals row.homeGoals ap)
  applyEloSeq s2 row.homeTeam row.awayTeam row.fullTimeResult

/-- One full iteration of the per-league loop (features.py lines 94-172):
season boundary handling, both snapshots, the emitted row, then the mutations.
Both snapshots are taken from `states0`, before any mutation for the match. -/
noncomputable def replayStep (ls : LeagueState) (row : MatchRow) : FeatureRow × LeagueState :=
  let states0 := seasonAdjustedStates ls row.seasonCode
  let home := snapshot (states0 row.homeTeam) row.matchDate
  let away := snapshot (states0 row.awayTeam) row.matchDate
  (mkFeatureRow row home away,
   { currentSeason := some row.seasonCode, states := applyMatchUpdates states0 row })

/-- The per-league loop of `build_match_features` over a league's rows (in
the stable (season_start_year, match_date, home_team) sort order in which the
loop visits them), returning the emitted rows and the final loop state. -/
noncomputable def replayLeague : LeagueState → List MatchRow → List FeatureRow × LeagueState
  | ls, [] => ([], ls)
  | ls, row :: rest =>
      let step := replayStep ls row
      let tail := replayLeague step.2 rest
      (step.1 :: tail.1, tail.2)

/-- `build_match_features` restricted to one league block (features.py lines
86-177): the block's rows arrive stably sorted by season start year, match
date, then home team, and the emitted rows keep that order. -/
noncomputable def buildMatchFeatures (rows : List MatchRow) : List FeatureRow :=
  (replayLeague initialLeagueState rows).1

/-! ### Simulation (simulation.py) -/

/-- One entry of the league table dict (simulation.py line 93):
points/gf/ga/gd/played, all starting at zero; `gd` may be negative. -/
structure TableEntry where
  points : ℕ
  gf : ℕ
  ga : ℕ
  gd : ℤ
  played : ℕ
deriving DecidableEq, Repr

def emptyTableEntry : TableEntry := ⟨0, 0, 0, 0, 0⟩

/-- The sort key of the ranking (simulation.py line 244):
(points, goal difference, goals for). -/
def rankKey (e : TableEntry) : ℕ × ℤ × ℕ := (e.points, e.gd, e.gf)

/-- Lexicographic greater-or-equal on ranking keys: with a stable sort this
realises Python's `sorted(..., key=..., reverse=True)`. -/
def keyGe (a b : ℕ × ℤ × ℕ) : Bool :=
  decide (b.1 < a.1) ||
    (decide (a.1 = b.1) &&
      (decide (b.2.1 < a.2.1) ||
        (decide (a.2.1 = b.2.1) && (decide (b.2.2 < a.2.2) || decide (a.2.2 = b.2.2)))))

/-- Stable insertion into a sorted list: `x` goes in front of the first
element `y` with `le x y`. -/
def insertBy {α : Type} (le : α → α → Bool) (x : α) : List α → List α
  | [] => [x]
  | y :: ys => if le x y then x :: y :: ys else y :: insertBy le x ys

/-- Stable insertion sort; with a total preorder `le` this has the same
input/output behaviour as Python's stable `sorted`. -/
def sortBy {α : Type} (le : α → α → Bool) : List α → List α
  | [] => []
  | x :: xs => insertBy le x (sortBy le xs)

/-- `ranking = sorted(teams, key=points/gd/gf, reverse=True)`
(simulation.py lines 242-246). -/
def rankTeams (key : String → ℕ × ℤ × ℕ) (teams : List String) : List String :=
  sortBy (fun t u => keyGe (key t) (key u)) teams

/-- Ascending string comparison for `sorted(set(...))`. -/
def strLe (a b : String) : Bool := decide (a ≤ b)

/-- `sorted(set(home_team) | set(away_team))` (simulation.py lines 91, 198). -/
def sortedTeams (rows : List MatchRow) : List String :=
  sortBy strLe ((rows.map (fun r => r.homeTeam) ++ rows.map (fun r => r.awayTeam)).dedup)

/-- Stable sort of a block by ascending match date
(`sort_values("match_date")`, simulation.py lines 95, 279). -/
def sortByDate (rows : List MatchRow) : List MatchRow :=
  sortBy (fun r s => decide (r.matchDate ≤ s.matchDate)) rows

/-- The league-table mutations for one resolved match (simulation.py lines
108-117 and identically lines 230-239), in source order. -/
def applyTableResult (table : String → TableEntry) (home away : String)
    (hp ap hg ag : ℕ) : String → TableEntry :=
  let t1 := updateFn table home (fun e => { e with points := e.points + hp })
  let t2 := updateFn t1 away (fun e => { e with points := e.points + ap })
  let t3 := updateFn t2 home (fun e => { e with gf := e.gf + hg })
  let t4 := updateFn t3 home (fun e => { e with ga := e.ga + ag })
  let t5 := updateFn t4 away (fun e => { e with gf := e.gf + ag })
  let t6 := updateFn t5 away (fun e => { e with ga := e.ga + hg })
  let t7 := updateFn t6 home (fun e => { e with gd := (e.gf : ℤ) - (e.ga : ℤ) })
  let t8 := updateFn t7 away (fun e => { e with gd := (e.gf : ℤ) - (e.ga : ℤ) })
  let t9 := updateFn t8 home (fun e => { e with played := e.played + 1 })
  updateFn t9 away (fun e => { e with played := e.played + 1 })

/-- One step of the base replay in `_init_state_and_table` (simulation.py
lines 95-117): state updates for both sides, Elo pair update, then the table
updates. -/
noncomputable def initStep (acc : Teams × (String → TableEntry)) (row : MatchRow) :
    Teams × (String → TableEntry) :=
  let hp := (resultToPoints row.fullTimeResult).1
  let ap := (resultToPoints row.fullTimeResult).2
  let s1 := updateFn acc.1 row.homeTeam
    (fun s => updateState s row.matchDate row.homeGoals row.awayGoals hp)
  let s2 := updateFn s1 row.awayTeam
    (fun s => updateState s row.matchDate row.awayGoals row.homeGoals ap)
  let s3 := applyEloSeq s2 row.homeTeam row.awayTeam row.fullTimeResult
  (s3, applyTableResult acc.2 row.homeTeam row.awayTeam hp ap row.homeGoals row.awayGoals)

/-- `_init_state_and_table` (simulation.py lines 90-119): replay the played
season fixtures in date order from fresh states and a zero table. -/
noncomputable def initStateAndTable (rows : List MatchRow) : Teams × (String → TableEntry) :=
  (sortByDate rows).foldl initStep (fun _ => {}, fun _ => emptyTableEntry)

/-- `all_fixtures = [(h, a) for h in teams for a in teams if h != a]`
(simulation.py line 201). -/
def allFixtures (teams : List String) : List (String × String) :=
  teams.flatMap (fun h => (teams.filter (fun a => decide (h ≠ a))).map (fun a => (h, a)))

/-- The (home, away) pairs already played (simulation.py line 200). -/
def playedPairs (rows : List MatchRow) : List (String × String) :=
  rows.map (fun r => (r.homeTeam, r.awayTeam))

/-- `_sample_score` (simulation.py lines 160-166): fixed scoreline proxy per
sampled result. -/
def sampleScore : MatchResult → ℕ × ℕ
  | .H => (2, 1)
  | .A => (1, 2)
  | .D => (1, 1)

/-- The linear score of `_heuristic_probabilities` (simulation.py lines
170-182).  Note the rest term: 7.0 for a side with no prior match, else the
constant 5.0 — not the days-since-last-match feature. -/
noncomputable def heuristicScore (home away : TeamState) : ℝ :=
  let homePpg := safePpg home.seasonPoints home.seasonMatches
  let awayPpg := safePpg away.seasonPoints away.seasonMatches
  let homeForm := safeMean home.recentPoints
  let awayForm := safeMean away.recentPoints
  let homeRest : ℝ := if home.lastMatchDate = none then 7 else 5
  let awayRest : ℝ := if away.lastMatchDate = none then 7 else 5
  0.0028 * (home.elo - away.elo) + 0.85 * (homePpg - awayPpg) +
    0.25 * (homeForm - awayForm) + 0.02 * (homeRest - awayRest)

/-- `_heuristic_probabilities` (simulation.py lines 169-189): the
(P(H), P(D), P(A)) triple driving the stochastic outcome sampling. -/
noncomputable def heuristicProbabilities (home away : TeamState) : ℝ × ℝ × ℝ :=
  let score := heuristicScore home away
  let pHomeRaw := 1 / (1 + Real.exp (-score))
  let pDraw := max 0.14 (0.26 - 0.08 * |score|)
  let pHome := pHomeRaw * (1 - pDraw)
  let pAway := (1 - pHomeRaw) * (1 - pDraw)
  let total := pHome + pDraw + pAway
  (pHome / total, pDraw / total, pAway / total)

/-- One per-team output row of the simulation (simulation.py lines 254-264). -/
structure OutputRow where
  leagueCode : String
  team : String
  championProbability : ℚ
  top3Probability : ℚ
  expectedPoints : ℚ
deriving DecidableEq, Repr

/-- The running tallies across replications (simulation.py lines 207-209). -/
structure SimTallies where
  championCount : String → ℕ
  top3Count : String → ℕ
  pointsSum : String → ℕ

def initTallies : SimTallies := ⟨fun _ => 0, fun _ => 0, fun _ => 0⟩

/-- The mutable loop data of one replication's fixture loop. -/
structure FixtureLoopState (Rng : Type) where
  states : Teams
  table : String → TableEntry
  rng : Rng
  currentDate : ℤ

section Simulation

variable {Rng : Type}

/-- One iteration of the fixture loop of a replication (simulation.py lines
218-240).  The numpy draw `rng.choice(["H","D","A"], p=probs)` is abstracted
as the deterministic oracle `choose` applied to the RNG state and the
heuristic triple; the discarded `_build_feature_row` call (line 219) is pure
and has no effect. -/
noncomputable def simulateFixture (choose : Rng → ℝ × ℝ × ℝ → MatchResult × Rng)
    (acc : FixtureLoopState Rng) (fx : String × String) : FixtureLoopState Rng :=
  let probs := heuristicProbabilities (acc.states fx.1) (acc.states fx.2)
  let res := choose acc.rng probs
  let hp := (resultToPoints res.1).1
  let ap := (resultToPoints res.1).2
  let hg := (sampleScore res.1).1
  let ag := (sampleScore res.1).2
  let s1 := updateFn acc.states fx.1 (fun s => updateState s acc.currentDate hg ag hp)
  let s2 := updateFn s1 fx.2 (fun s => updateState s acc.currentDate ag hg ap)
  { states := applyEloSeq s2 fx.1 fx.2 res.1
    table := applyTableResult acc.table fx.1 fx.2 hp ap hg ag
    rng := res.2
    currentDate := acc.currentDate + 2 }

/-- One replication (simulation.py lines 211-252): shuffle the remaining
fixtures, play them out from an independent copy of the base state and table,
rank the final table and accumulate the champion/top-3/points tallies.
`ranking[0]` on an empty team list would raise in Python; the blocks handed
to the simulator are nonempty, so `headD` never supplies its default there. -/
noncomputable def runReplication (choose : Rng → ℝ × ℝ × ℝ → MatchResult × Rng)
    (shuffle : Rng → List (String × String) → List (String × String) × Rng)
    (teams : List String) (baseStates : Teams) (baseTable : String → TableEntry)
    (remaining : List (String × String)) (lastDate : ℤ)
    (acc : SimTallies × Rng) : SimTallies × Rng :=
  let sh := shuffle acc.2 remaining
  let final := sh.1.foldl (simulateFixture choose)
    ⟨baseStates, baseTable, sh.2, lastDate + 2⟩
  let ranking := rankTeams (fun t => rankKey (final.table t)) teams
  let champion := ranking.headD ""
  let tal := acc.1
  ({ championCount := updateFn tal.championCount champion (fun c => c + 1)
     top3Count := fun t => tal.top3Count t + (ranking.take 3).count t
     pointsSum := fun t => tal.pointsSum t + (final.table t).points },
   final.rng)

/-- Largest match date of a block (`season_df["match_date"].max()`,
simulation.py line 205); exact for nonempty blocks. -/
def maxMatchDate (rows : List MatchRow) : ℤ :=
  rows.foldl (fun m r => max m r.matchDate)
    ((rows.headD ⟨"", "", 0, 0, "", "", 0, 0, .D⟩).matchDate)

/-- `_league_simulation` (simulation.py lines 192-265): derive teams, played
and remaining fixtures and the base state, run `nSim` identical replications
threading the single RNG, and emit one row per team sorted by champion
probability descending. -/
noncomputable def leagueSimulation (choose : Rng → ℝ × ℝ × ℝ → MatchResult × Rng)
    (shuffle : Rng → List (String × String) → List (String × String) × Rng)
    (rows : List MatchRow) (nSim : ℕ) (rng : Rng) : List OutputRow × Rng :=
  let leagueCode := (rows.headD ⟨"", "", 0, 0, "", "", 0, 0, .D⟩).leagueCode
  let teams := sortedTeams rows
  let played := playedPairs rows
  let remaining := (allFixtures teams).filter (fun fx => decide (fx ∉ played))
  let base := initStateAndTable rows
  let lastDate := maxMatchDate rows
  let result :=
    (runReplication choose shuffle teams base.1 base.2 remaining lastDate)^[nSim]
      (initTallies, rng)
  let tal := result.1
  let outRows := teams.map (fun team =>
    { leagueCode := leagueCode
      team := team
      championProbability := (tal.championCount team : ℚ) / (nSim : ℚ)
      top3Probability := (tal.top3Count team : ℚ) / (nSim : ℚ)
      expectedPoints := (tal.pointsSum team : ℚ) / (nSim : ℚ) : OutputRow })
  (sortBy (fun r s => decide (s.championProbability ≤ r.championProbability)) outRows,
   result.2)

/-- Final cross-league ordering of `run_champion_simulation` (simulation.py
line 297): league code ascending, champion probability descending, stable. -/
def outFinalLe (r s : OutputRow) : Bool :=
  decide (r.leagueCode < s.leagueCode) ||
    (decide (r.leagueCode = s.leagueCode) &&
      decide (s.championProbability ≤ r.championProbability))

/-- The latest season start year in the data (simulation.py line 269); exact
for nonempty data. -/
def latestSeasonYear (data : List MatchRow) : ℤ :=
  data.foldl (fun m r => max m r.seasonStartYear)
    ((data.headD ⟨"", "", 0, 0, "", "", 0, 0, .D⟩).seasonStartYear)

/-- `run_champion_simulation` (simulation.py lines 268-317), without the
plotting and file-writing side effects: keep the latest season, fail on empty
data (Python raises either at `int(max(...))` or at the explicit empty check),
then simulate each league block in sorted league order, threading the one RNG
across leagues, and concatenate the per-league tables.  With nonempty data
and `n_simulations = 0`, Python raises an unchecked ZeroDivisionError at
`champion_count[team] / n_simulations` (simulation.py line 260) while
aggregating the first league: every league block is nonempty, so that
division always executes; the embedding surfaces this error path before the
league loop, where it is first reachable. -/
noncomputable def runChampionSimulation (choose : Rng → ℝ × ℝ × ℝ → MatchResult × Rng)
    (shuffle : Rng → List (String × String) → List (String × String) × Rng)
    (data : List MatchRow) (nSim : ℕ) (rng : Rng) : Except String (List OutputRow) :=
  if data.isEmpty then .error "No data for latest season simulation."
  else if nSim = 0 then .error "ZeroDivisionError: division by zero"
  else
    let latestYear := latestSeasonYear data
    let latest := data.filter (fun r => decide (r.seasonStartYear = latestYear))
    let leagues := sortBy strLe ((latest.map (fun r => r.leagueCode)).dedup)
    let run := leagues.foldl
      (fun (acc : List OutputRow × Rng) code =>
        let block := sortByDate (latest.filter (fun r => decide (r.leagueCode = code)))
        let res := leagueSimulation choose shuffle block nSim acc.2
        (acc.1 ++ res.1, res.2))
      ([], rng)
    .ok (sortBy outFinalLe run.1)

end Simulation

/-! ### Generic facts about the stable insertion sort -/

theorem insertBy_perm {α : Type} (le : α → α → Bool) (x : α) (l : List α) :
    (insertBy le x l).Perm (x :: l) := by
  induction l with
  | nil => simp [insertBy]
  | cons y ys ih =>
      by_cases h : le x y = true
      · simp [insertBy, h]
      · simp only [insertBy, h]
        rw [if_neg (by simp [h])]
        exact ((ih.cons y).trans (List.Perm.swap x y ys))

theorem sortBy_perm {α : Type} (le : α → α → Bool) (l : List α) :
    (sortBy le l).Perm l := by
  induction l with
  | nil => simp [sortBy]
  | cons x xs ih =>
      exact (insertBy_perm le x (sortBy le xs)).trans (ih.cons x)

theorem mem_insertBy {α : Type} (le : α → α → Bool) (x : α) (l : List α) (z : α) :
    z ∈ insertBy le x l ↔ z = x ∨ z ∈ l := by
  have h := (insertBy_perm le x l).mem_iff (a := z)
  simpa using h

theorem insertBy_pairwise {α : Type} (le : α → α → Bool)
    (htot : ∀ a b, le a b = true ∨ le b a = true)
    (htrans : ∀ a b c, le a b = true → le b c = true → le a c = true)
    (x : α) (l : List α) (hl : l.Pairwise (fun a b => le a b = true)) :
    (insertBy le x l).Pairwise (fun a b => le a b = true) := by
  induction l with
  | nil => simp [insertBy]
  | cons y ys ih =>
      rcases List.pairwise_cons.mp hl with ⟨hy, hys⟩
      by_cases h : le x y = true
      · simp only [insertBy, h, if_true]
        refine List.pairwise_cons.mpr ⟨?_, hl⟩
        intro z hz
        rcases List.mem_cons.mp hz with rfl | hz
        · exact h
        · exact htrans x y z h (hy z hz)
      · simp only [insertBy, h]
        rw [if_neg (by simp [h])]
        refine List.pairwise_cons.mpr ⟨?_, ih hys⟩
        intro z hz
        rcases (mem_insertBy le x ys z).mp hz with rfl | hz
        · rcases htot z y with hzy | hyz
          · exact absurd hzy h
          · exact hyz
        · exact hy z hz

theorem filter_insertBy {α : Type} (le : α → α → Bool) (p : α → Bool) (x : α) (l : List α)
    (hkey : p x = true → ∀ z, p z = true → le x z = true) :
    (insertBy le x l).filter p = (x :: l).filter p := by
  induction l with
  | nil => simp [insertBy]
  | cons y ys ih =>
      by_cases h : le x y = true
      · simp [insertBy, h]
      · simp only [insertBy, h]
        rw [if_neg (by simp [h])]
        by_cases hpx : p x = true
        · have hpy : p y = false := by
            by_contra hpy
            have hle : le x y = true := hkey hpx y (by simpa using hpy)
            exact h hle
          simp [List.filter_cons, hpx, hpy, ih]
        · have hpx' : p x = false := by simpa using hpx
          simp [List.filter_cons, hpx', ih]

theorem filter_sortBy {α : Type} (le : α → α → Bool) (p : α → Bool) (l : List α)
    (hcls : ∀ a b, p a = true → p b = true → le a b = true) :
    (sortBy le l).filter p = l.filter p := by
  induction l with
  | nil => simp [sortBy]
  | cons x xs ih =>
      have h := filter_insertBy le p x (sortBy le xs) (fun hpx z hpz => hcls x z hpx hpz)
      simp only [sortBy, h, List.filter_cons]
      by_cases hpx : p x = true <;> simp [hpx, ih]

theorem sortBy_pairwise {α : Type} (le : α → α → Bool)
    (htot : ∀ a b, le a b = true ∨ le b a = true)
    (htrans : ∀ a b c, le a b = true → le b c = true → le a c = true)
    (l : List α) : (sortBy le l).Pairwise (fun a b => le a b = true) := by
  induction l with
  | nil => simp [sortBy]
  | cons x xs ih => exact insertBy_pairwise le htot htrans x (sortBy le xs) ih

/-! ### The ranking relation -/

/-- The propositional reading of `keyGe`: points descending, then goal
difference, then goals for. -/
def keyGeP (a b : ℕ × ℤ × ℕ) : Prop :=
  b.1 < a.1 ∨ (a.1 = b.1 ∧ (b.2.1 < a.2.1 ∨ (a.2.1 = b.2.1 ∧ (b.2.2 < a.2.2 ∨ a.2.2 = b.2.2))))

theorem keyGe_iff (a b : ℕ × ℤ × ℕ) : keyGe a b = true ↔ keyGeP a b := by
  simp [keyGe, keyGeP]

theorem keyGe_total (a b : ℕ × ℤ × ℕ) : keyGe a b = true ∨ keyGe b a = true := by
  rw [keyGe_iff, keyGe_iff]
  obtain ⟨a1, a2, a3⟩ := a
  obtain ⟨b1, b2, b3⟩ := b
  simp only [keyGeP]
  omega

theorem keyGe_trans (a b c : ℕ × ℤ × ℕ) (h1 : keyGe a b = true) (h2 : keyGe b c = true) :
    keyGe a c = true := by
  rw [keyGe_iff] at h1 h2 ⊢
  obtain ⟨a1, a2, a3⟩ := a
  obtain ⟨b1, b2, b3⟩ := b
  obtain ⟨c1, c2, c3⟩ := c
  simp only [keyGeP] at h1 h2 ⊢
  omega

theorem keyGe_of_eq (a b : ℕ × ℤ × ℕ) (h : a = b) : keyGe a b = true := by
  subst h
  rw [keyGe_iff]
  obtain ⟨a1, a2, a3⟩ := a
  simp [keyGeP]

/-- A two-team table with equal points, equal goal difference and goals-for
50 versus 48, for the tie-break instance. -/
def tieDemoTable : String → TableEntry :=
  fun t => if t = "FIFTY" then ⟨70, 50, 40, 10, 38⟩ else ⟨70, 48, 38, 10, 38⟩

/-- C7.  Standings tie-break correctness: the ranking produced after each
replication is a stable descending sort of the teams by (points, goal
difference, goals-for): it is a permutation of the team list, consecutive
entries are lexicographically non-increasing in that key (so points first,
then goal difference, then goals-for), teams with identical keys keep their
input order (stability, hence determinism for a fixed input), and on the
concrete 50- versus 48-goals-for tie, the 50-goals team ranks first from
either input order. -/
theorem standings_tiebreak_correct :
    (∀ (key : String → ℕ × ℤ × ℕ) (teams : List String),
        (rankTeams key teams).Perm teams) ∧
    (∀ (key : String → ℕ × ℤ × ℕ) (teams : List String),
        (rankTeams key teams).Pairwise (fun a b => keyGeP (key a) (key b))) ∧
    (∀ (key : String → ℕ × ℤ × ℕ) (teams : List String) (k : ℕ × ℤ × ℕ),
        (rankTeams key teams).filter (fun t => decide (key t = k)) =
          teams.filter (fun t => decide (key t = k))) ∧
    rankTeams (fun t => rankKey (tieDemoTable t)) ["FIFTY", "FORTYEIGHT"] =
      ["FIFTY", "FORTYEIGHT"] ∧
    rankTeams (fun t => rankKey (tieDemoTable t)) ["FORTYEIGHT", "FIFTY"] =
      ["FIFTY", "FORTYEIGHT"] := by
  refine ⟨?_, ?_, ?_, ?_, ?_⟩
  · intro key teams
    exact sortBy_perm _ teams
  · intro key teams
    have h := sortBy_pairwise (fun t u => keyGe (key t) (key u))
      (fun a b => keyGe_total (key a) (key b))
      (fun a b c => keyGe_trans (key a) (key b) (key c)) teams
    exact h.imp (fun hab => (keyGe_iff _ _).mp hab)
  · intro key teams k
    refine filter_sortBy _ _ teams ?_
    intro a b ha hb
    exact keyGe_of_eq _ _ (by
      have ha' : key a = k := by simpa using ha
      have hb' : key b = k := by simpa using hb
      rw [ha', hb'])
  · decide
  · decide

/-! ### Elo update and season regression -/

/-- C5.  Elo zero-sum and order-independence: for a processed match (the
shared update used at features.py lines 169-172 and by `_update_elo` in the
simulator), the home delta is K·(actual − expected) with K = 20 computed from
both pre-update ratings, the away delta is its exact negation (the two deltas
sum to 0), and the expected score is 1/(1+10^((awayElo−(homeElo+60))/400)). -/
theorem elo_zero_sum (states : Teams) (home away : String) (result : MatchResult)
    (hne : home ≠ away) :
    ((applyEloSeq states home away result) home).elo =
      (states home).elo + kFactor *
        (resultHomeScore result -
          homeExpectedScore (states home).elo (states away).elo) ∧
    (((applyEloSeq states home away result) home).elo - (states home).elo) +
      (((applyEloSeq states home away result) away).elo - (states away).elo) = 0 ∧
    homeExpectedScore (states home).elo (states away).elo =
      1 / (1 + (10 : ℝ) ^ (((states away).elo - ((states home).elo + 60)) / 400)) := by
  have hne' : away ≠ home := Ne.symm hne
  refine ⟨?_, ?_, ?_⟩
  · simp [applyEloSeq, updateFn, hne, hne']
  · simp [applyEloSeq, updateFn, hne, hne']
    ring
  · simp [homeExpectedScore, homeEloAdvantage]

theorem elo_zero_sum_witness :
    ("HOME" : String) ≠ "AWAY" ∧
    ((((applyEloSeq (fun _ => {}) "HOME" "AWAY" .H) "HOME").elo -
        (((fun _ => {}) : Teams) "HOME").elo) +
      (((applyEloSeq (fun _ => {}) "HOME" "AWAY" .H) "AWAY").elo -
        (((fun _ => {}) : Teams) "AWAY").elo) = 0) :=
  ⟨by decide, (elo_zero_sum (fun _ => {}) "HOME" "AWAY" .H (by decide)).2.1⟩

/-- C6.  Season regression: regression blends the Elo (0.75·old + 0.25·1500,
so 1700 becomes exactly 1650) and clears the season counters, both recency
windows and the last-match date; in the replay loop it is applied to a team's
state exactly when the row's season code differs from the current one (the
state of any team not playing in the row is otherwise untouched), the emitted
snapshot reads the regressed state, and the current season becomes the row's
season code (so the next row of the same season does not regress again). -/
theorem season_regression_exact (ls : LeagueState) (row : MatchRow) (t : String)
    (hth : t ≠ row.homeTeam) (hta : t ≠ row.awayTeam) :
    (∀ s : TeamState, resetForNewSeason s =
      ⟨0.75 * s.elo + 0.25 * 1500, 0, 0, 0, 0, [], [], none⟩) ∧
    (resetForNewSeason { elo := 1700 } : TeamState).elo = 1650 ∧
    (replayStep ls row).2.states t =
      (if some row.seasonCode = ls.currentSeason then ls.states t
       else resetForNewSeason (ls.states t)) ∧
    (replayStep ls row).1.homeEloPre =
      (if some row.seasonCode = ls.currentSeason then ls.states row.homeTeam
       else resetForNewSeason (ls.states row.homeTeam)).elo ∧
    (replayStep ls row).2.currentSeason = some row.seasonCode := by
  refine ⟨fun s => rfl, ?_, ?_, ?_, rfl⟩
  · simp only [resetForNewSeason]
    norm_num
  · by_cases hs : some row.seasonCode = ls.currentSeason <;>
      simp [replayStep, applyMatchUpdates, applyEloSeq, updateFn,
        seasonAdjustedStates, hs, hth, hta]
  · by_cases hs : some row.seasonCode = ls.currentSeason <;>
      simp [replayStep, mkFeatureRow, snapshot, seasonAdjustedStates, hs]

theorem season_regression_exact_witness :
    ("OTHER" : String) ≠ "HOME" ∧ ("OTHER" : String) ≠ "AWAY" ∧
    (resetForNewSeason { elo := 1700 } : TeamState).elo = 1650 :=
  ⟨by decide, by decide,
    (season_regression_exact initialLeagueState
      ⟨"E0", "2324", 2023, 100, "HOME", "AWAY", 2, 1, .H⟩ "OTHER"
      (by decide) (by decide)).2.1⟩

/-! ### Prefix determinism of the replay (no leakage) -/

theorem replayLeague_append (ls : LeagueState) (l1 l2 : List MatchRow) :
    replayLeague ls (l1 ++ l2) =
      ((replayLeague ls l1).1 ++ (replayLeague (replayLeague ls l1).2 l2).1,
       (replayLeague (replayLeague ls l1).2 l2).2) := by
  induction l1 generalizing ls with
  | nil => simp [replayLeague]
  | cons r rest ih => simp [replayLeague, ih]

theorem replayLeague_length (ls : LeagueState) (l : List MatchRow) :
    (replayLeague ls l).1.length = l.length := by
  induction l generalizing ls with
  | nil => simp [replayLeague]
  | cons r rest ih => simp [replayLeague, ih]

/-- C1.  No leakage / temporal causality: in the per-league replay of
`build_match_features` (rows visited in the stable chronological sort order),
the emitted feature row at position i is a function of the rows strictly
before position i and of row i's own identifying fields alone — replacing the
rows after position i by any other list (permuting or removing them) leaves
row i unchanged, and dropping the suffix entirely reproduces the prefix's
rows exactly.  Both snapshots at position i are taken before any mutation for
that row, which is what makes the emitted row independent of the suffix. -/
theorem no_leakage :
    (∀ (pre : List MatchRow) (m : MatchRow) (suf suf' : List MatchRow) (i : ℕ),
      i ≤ pre.length →
        (buildMatchFeatures (pre ++ m :: suf)).get? i =
          (buildMatchFeatures (pre ++ m :: suf')).get? i) ∧
    (∀ (pre suf : List MatchRow),
      (buildMatchFeatures (pre ++ suf)).take pre.length = buildMatchFeatures pre) := by
  have key : ∀ (pre l2 : List MatchRow),
      buildMatchFeatures (pre ++ l2) =
        buildMatchFeatures pre ++
          (replayLeague (replayLeague initialLeagueState pre).2 l2).1 := by
    intro pre l2
    simp [buildMatchFeatures, replayLeague_append]
  constructor
  · intro pre m suf suf' i hi
    rw [key pre (m :: suf), key pre (m :: suf')]
    rcases lt_or_eq_of_le hi with hlt | heq
    · have hlen : i < (buildMatchFeatures pre).length := by
        simpa [buildMatchFeatures, replayLeague_length] using hlt
      rw [List.get?_append hlen, List.get?_append hlen]
    · subst heq
      have hlen : (buildMatchFeatures pre).length = pre.length := by
        simp [buildMatchFeatures, replayLeague_length]
      rw [List.get?_append_right hlen.le, List.get?_append_right hlen.le, hlen,
        Nat.sub_self]
      simp [replayLeague]
  · intro pre suf
    rw [key pre suf]
    have hlen : (buildMatchFeatures pre).length = pre.length := by
      simp [buildMatchFeatures, replayLeague_length]
    rw [← hlen, List.take_left]

theorem no_leakage_witness :
    (1 : ℕ) ≤ ([⟨"E0", "2324", 2023, 100, "HOME", "AWAY", 2, 1, .H⟩] :
      List MatchRow).length ∧
    (buildMatchFeatures ([⟨"E0", "2324", 2023, 100, "HOME", "AWAY", 2, 1, .H⟩] ++
        ⟨"E0", "2324", 2023, 102, "AWAY", "HOME", 0, 0, .D⟩ ::
          [⟨"E0", "2324", 2023, 104, "HOME", "AWAY", 1, 3, .A⟩])).get? 1 =
      (buildMatchFeatures ([⟨"E0", "2324", 2023, 100, "HOME", "AWAY", 2, 1, .H⟩] ++
        ⟨"E0", "2324", 2023, 102, "AWAY", "HOME", 0, 0, .D⟩ :: [])).get? 1 :=
  ⟨by decide,
    no_leakage.1 [⟨"E0", "2324", 2023, 100, "HOME", "AWAY", 2, 1, .H⟩]
      ⟨"E0", "2324", 2023, 102, "AWAY", "HOME", 0, 0, .D⟩
      [⟨"E0", "2324", 2023, 104, "HOME", "AWAY", 1, 3, .A⟩] [] 1 (by decide)⟩

/-! ### Bounded recency windows -/

def windowsBounded (s : TeamState) : Prop :=
  s.recentPoints.length ≤ 5 ∧ s.recentGoalDiff.length ≤ 5

instance (s : TeamState) : Decidable (windowsBounded s) := by
  unfold windowsBounded
  infer_instance

theorem pushWindow_length_le (w : List ℤ) (x : ℤ) : (pushWindow w x).length ≤ 5 := by
  simp only [pushWindow, List.length_drop]
  omega

theorem windowsBounded_defaultState : windowsBounded ({} : TeamState) := by decide

theorem pushWindow_full (w : List ℤ) (x : ℤ) (h : w.length = 5) :
    pushWindow w x = w.tail ++ [x] := by
  have h6 : (w ++ [x]).length - 5 = 1 := by simp [h]
  rw [pushWindow, h6, List.drop_append_eq_append_drop]
  simp [h, List.drop_one]

theorem windowsBounded_updateState (s : TeamState) (d : ℤ) (gf ga p : ℕ) :
    windowsBounded (updateState s d gf ga p) :=
  ⟨pushWindow_length_le _ _, pushWindow_length_le _ _⟩

theorem windowsBounded_reset (s : TeamState) : windowsBounded (resetForNewSeason s) := by
  simp [windowsBounded, resetForNewSeason]

theorem windowsBounded_updateFn (f : Teams) (k : String) (g : TeamState → TeamState)
    (h : ∀ u, windowsBounded (f u))
    (hg : ∀ s, windowsBounded s → windowsBounded (g s)) (t : String) :
    windowsBounded ((updateFn f k g) t) := by
  unfold updateFn
  split
  · exact hg _ (h _)
  · exact h _

theorem windowsBounded_setElo (s : TeamState) (e : ℝ) (h : windowsBounded s) :
    windowsBounded { s with elo := e } := h

theorem windowsBounded_applyEloSeq (states : Teams) (home away : String)
    (result : MatchResult) (h : ∀ u, windowsBounded (states u)) (t : String) :
    windowsBounded ((applyEloSeq states home away result) t) := by
  unfold applyEloSeq
  refine windowsBounded_updateFn _ _ _ (fun u => ?_) (fun s hs => windowsBounded_setElo _ _ hs) t
  exact windowsBounded_updateFn _ _ _ h (fun s hs => windowsBounded_setElo _ _ hs) u

theorem windowsBounded_applyMatchUpdates (states : Teams) (row : MatchRow)
    (h : ∀ u, windowsBounded (states u)) (t : String) :
    windowsBounded ((applyMatchUpdates states row) t) := by
  unfold applyMatchUpdates
  refine windowsBounded_applyEloSeq _ _ _ _ (fun u => ?_) t
  refine windowsBounded_updateFn _ _ _ (fun v => ?_) (fun s _ => windowsBounded_updateState _ _ _ _ _) u
  exact windowsBounded_updateFn _ _ _ h (fun s _ => windowsBounded_updateState _ _ _ _ _) v

theorem windowsBounded_replayStep (ls : LeagueState) (row : MatchRow)
    (h : ∀ u, windowsBounded (ls.states u)) (t : String) :
    windowsBounded ((replayStep ls row).2.states t) := by
  refine windowsBounded_applyMatchUpdates _ _ (fun u => ?_) t
  unfold seasonAdjustedStates
  split
  · exact h u
  · exact windowsBounded_reset _

theorem windowsBounded_replayLeague (rows : List MatchRow) (ls : LeagueState)
    (h : ∀ u, windowsBounded (ls.states u)) (t : String) :
    windowsBounded ((replayLeague ls rows).2.states t) := by
  induction rows generalizing ls with
  | nil => exact h t
  | cons row rest ih =>
      simp only [replayLeague]
      exact ih _ (windowsBounded_replayStep ls row h)

theorem windowsBounded_initStep (acc : Teams × (String → TableEntry)) (row : MatchRow)
    (h : ∀ u, windowsBounded (acc.1 u)) (t : String) :
    windowsBounded ((initStep acc row).1 t) := by
  unfold initStep
  refine windowsBounded_applyEloSeq _ _ _ _ (fun u => ?_) t
  refine windowsBounded_updateFn _ _ _ (fun v => ?_) (fun s _ => windowsBounded_updateState _ _ _ _ _) u
  exact windowsBounded_updateFn _ _ _ h (fun s _ => windowsBounded_updateState _ _ _ _ _) v

theorem windowsBounded_initFold (rows : List MatchRow) (acc : Teams × (String → TableEntry))
    (h : ∀ u, windowsBounded (acc.1 u)) (t : String) :
    windowsBounded ((rows.foldl initStep acc).1 t) := by
  induction rows generalizing acc with
  | nil => exact h t
  | cons row rest ih =>
      exact ih _ (windowsBounded_initStep acc row h)

theorem windowsBounded_simulateFixture {Rng : Type}
    (choose : Rng → ℝ × ℝ × ℝ → MatchResult × Rng)
    (acc : FixtureLoopState Rng) (fx : String × String)
    (h : ∀ u, windowsBounded (acc.states u)) (t : String) :
    windowsBounded ((simulateFixture choose acc fx).states t) := by
  unfold simulateFixture
  refine windowsBounded_applyEloSeq _ _ _ _ (fun u => ?_) t
  refine windowsBounded_updateFn _ _ _ (fun v => ?_) (fun s _ => windowsBounded_updateState _ _ _ _ _) u
  exact windowsBounded_updateFn _ _ _ h (fun s _ => windowsBounded_updateState _ _ _ _ _) v

theorem windowsBounded_fixtureFold {Rng : Type}
    (choose : Rng → ℝ × ℝ × ℝ → MatchResult × Rng)
    (fxs : List (String × String)) (start : FixtureLoopState Rng)
    (h : ∀ u, windowsBounded (start.states u)) (t : String) :
    windowsBounded ((fxs.foldl (simulateFixture choose) start).states t) := by
  induction fxs generalizing start with
  | nil => exact h t
  | cons fx rest ih =>
      exact ih _ (windowsBounded_simulateFixture choose start fx h)

/-- A deterministic stand-in for the numpy outcome draw, for concrete runs. -/
def constChoose : Unit → ℝ × ℝ × ℝ → MatchResult × Unit := fun _ _ => (MatchResult.H, ())

/-- A deterministic stand-in for the numpy shuffle, for concrete runs. -/
def idShuffle : Unit → List (String × String) → List (String × String) × Unit :=
  fun _ l => (l, ())

/-- C9.  Bounded recency windows: a push onto a window never leaves more than
5 entries, a push onto a full window evicts exactly the oldest entry (FIFO),
and every team state reached by the historical replay
(`build_match_features`), by the simulator's base replay
(`_init_state_and_table`), or by any replication's fixture loop from a
bounded start, has both recency windows of length at most 5. -/
theorem bounded_recency_windows (Rng : Type) :
    (∀ (w : List ℤ) (x : ℤ), (pushWindow w x).length ≤ 5) ∧
    (∀ (w : List ℤ) (x : ℤ), w.length = 5 → pushWindow w x = w.tail ++ [x]) ∧
    (∀ (rows : List MatchRow) (t : String),
        windowsBounded ((replayLeague initialLeagueState rows).2.states t)) ∧
    (∀ (rows : List MatchRow) (t : String),
        windowsBounded ((initStateAndTable rows).1 t)) ∧
    (∀ (choose : Rng → ℝ × ℝ × ℝ → MatchResult × Rng)
        (fxs : List (String × String)) (start : FixtureLoopState Rng) (t : String),
        (∀ u, windowsBounded (start.states u)) →
        windowsBounded ((fxs.foldl (simulateFixture choose) start).states t)) := by
  refine ⟨pushWindow_length_le, pushWindow_full, ?_, ?_, ?_⟩
  · intro rows t
    exact windowsBounded_replayLeague rows initialLeagueState
      (fun u => windowsBounded_defaultState) t
  · intro rows t
    exact windowsBounded_initFold (sortByDate rows) _
      (fun u => windowsBounded_defaultState) t
  · intro choose fxs start t h
    exact windowsBounded_fixtureFold choose fxs start h t

theorem bounded_recency_windows_witness :
    ([(1 : ℤ), 2, 3, 4, 5].length = 5 ∧
      pushWindow [(1 : ℤ), 2, 3, 4, 5] 6 = [(1 : ℤ), 2, 3, 4, 5].tail ++ [6]) ∧
    windowsBounded
      (([("HOME", "AWAY")].foldl (simulateFixture constChoose)
        ⟨fun _ => {}, fun _ => emptyTableEntry, (), 0⟩).states "HOME") :=
  ⟨⟨by decide, (bounded_recency_windows Unit).2.1 [1, 2, 3, 4, 5] 6 (by decide)⟩,
   (bounded_recency_windows Unit).2.2.2.2 constChoose [("HOME", "AWAY")]
     ⟨fun _ => {}, fun _ => emptyTableEntry, (), 0⟩ "HOME"
     (fun u => windowsBounded_defaultState)⟩

/-! ### The heuristic outcome distribution -/

theorem heuristicProbabilities_eq (h a : TeamState) :
    heuristicProbabilities h a =
      ((1 / (1 + Real.exp (-(heuristicScore h a)))) *
         (1 - max 0.14 (0.26 - 0.08 * |heuristicScore h a|)),
       max 0.14 (0.26 - 0.08 * |heuristicScore h a|),
       (1 - 1 / (1 + Real.exp (-(heuristicScore h a)))) *
         (1 - max 0.14 (0.26 - 0.08 * |heuristicScore h a|))) := by
  have htot : ∀ q d : ℝ, q * (1 - d) + d + (1 - q) * (1 - d) = 1 := by
    intro q d
    ring
  simp only [heuristicProbabilities, htot, div_one]

/-- C4.  Probability normalization: for any pair of team states the heuristic
triple has every component in [0, 1], the components sum to exactly 1 (hence
within 1e-9 of 1.0), and the renormalization divisor
pHome + pDraw + pAway is strictly positive (it equals 1), so the model never
divides by zero. -/
theorem probability_normalization (home away : TeamState) :
    (0 ≤ (heuristicProbabilities home away).1 ∧ (heuristicProbabilities home away).1 ≤ 1) ∧
    (0 ≤ (heuristicProbabilities home away).2.1 ∧ (heuristicProbabilities home away).2.1 ≤ 1) ∧
    (0 ≤ (heuristicProbabilities home away).2.2 ∧ (heuristicProbabilities home away).2.2 ≤ 1) ∧
    (heuristicProbabilities home away).1 + (heuristicProbabilities home away).2.1 +
      (heuristicProbabilities home away).2.2 = 1 ∧
    0 < (1 / (1 + Real.exp (-(heuristicScore home away)))) *
          (1 - max 0.14 (0.26 - 0.08 * |heuristicScore home away|)) +
        max 0.14 (0.26 - 0.08 * |heuristicScore home away|) +
        (1 - 1 / (1 + Real.exp (-(heuristicScore home away)))) *
          (1 - max 0.14 (0.26 - 0.08 * |heuristicScore home away|)) := by
  rw [heuristicProbabilities_eq]
  dsimp only
  set s := heuristicScore home away with hs
  have he : 0 < Real.exp (-s) := Real.exp_pos _
  have hden : (0 : ℝ) < 1 + Real.exp (-s) := by linarith
  set q := 1 / (1 + Real.exp (-s)) with hq
  have hq0 : 0 < q := by positivity
  have hq1 : q < 1 := by
    rw [hq, div_lt_one hden]
    linarith
  set d := max (0.14 : ℝ) (0.26 - 0.08 * |s|) with hd
  have hd1 : (0.14 : ℝ) ≤ d := le_max_left _ _
  have hd2 : d ≤ (0.26 : ℝ) := by
    apply max_le
    · norm_num
    · have : (0 : ℝ) ≤ 0.08 * |s| := by positivity
      linarith
  refine ⟨⟨?_, ?_⟩, ⟨?_, ?_⟩, ⟨?_, ?_⟩, by ring, by nlinarith⟩
  · nlinarith
  · nlinarith
  · linarith
  · linarith
  · nlinarith
  · nlinarith

/-- The heuristic score as the C3 claim words it: the rest term is the
difference of the two sides' rest_days_pre features relative to the match
date (7.0 default if no prior match, else days since last match).  Written
from the spec sentence for comparison with `heuristicScore`. -/
noncomputable def heuristicScoreSpecRest (home away : TeamState) (matchDate : ℤ) : ℝ :=
  0.0028 * (home.elo - away.elo) +
    0.85 * (safePpg home.seasonPoints home.seasonMatches -
      safePpg away.seasonPoints away.seasonMatches) +
    0.25 * (safeMean home.recentPoints - safeMean away.recentPoints) +
    0.02 * (restDays home matchDate - restDays away matchDate)

/-- The outcome triple as the C3 claim words it, built on
`heuristicScoreSpecRest`; written from the spec sentence for comparison with
`heuristicProbabilities`. -/
noncomputable def heuristicProbabilitiesSpecRest (home away : TeamState) (matchDate : ℤ) :
    ℝ × ℝ × ℝ :=
  let score := heuristicScoreSpecRest home away matchDate
  let pHomeRaw := 1 / (1 + Real.exp (-score))
  let pDraw := max 0.14 (0.26 - 0.08 * |score|)
  let pHome := pHomeRaw * (1 - pDraw)
  let pAway := (1 - pHomeRaw) * (1 - pDraw)
  let total := pHome + pDraw + pAway
  (pHome / total, pDraw / total, pAway / total)

theorem heuristicProbabilitiesSpecRest_eq (h a : TeamState) (d : ℤ) :
    heuristicProbabilitiesSpecRest h a d =
      ((1 / (1 + Real.exp (-(heuristicScoreSpecRest h a d)))) *
         (1 - max 0.14 (0.26 - 0.08 * |heuristicScoreSpecRest h a d|)),
       max 0.14 (0.26 - 0.08 * |heuristicScoreSpecRest h a d|),
       (1 - 1 / (1 + Real.exp (-(heuristicScoreSpecRest h a d)))) *
         (1 - max 0.14 (0.26 - 0.08 * |heuristicScoreSpecRest h a d|))) := by
  have htot : ∀ q d : ℝ, q * (1 - d) + d + (1 - q) * (1 - d) = 1 := by
    intro q d
    ring
  simp only [heuristicProbabilitiesSpecRest, htot, div_one]

/-- Counterexample to C3 as stated: with a home side that never played
(rest 7.0) and an away side whose last match was 3 days before the match
date, the claimed formula uses rest difference 7 − 3 = 4, but the code uses
the flat 7 − 5 = 2, and the two draw probabilities differ
(0.2568 versus 0.2536). -/
theorem heuristic_rest_counterexample :
    heuristicProbabilities {} { lastMatchDate := some 0 } ≠
      heuristicProbabilitiesSpecRest {} { lastMatchDate := some 0 } 3 := by
  intro hEq
  have hscode : heuristicScore {} { lastMatchDate := some 0 } = 0.04 := by
    norm_num [heuristicScore, safePpg, safeMean, Option.some_ne_none]
  have hsspec : heuristicScoreSpecRest {} { lastMatchDate := some 0 } 3 = 0.08 := by
    norm_num [heuristicScoreSpecRest, safePpg, safeMean, restDays]
  have h2 := congrArg (fun p : ℝ × ℝ × ℝ => p.2.1) hEq
  rw [heuristicProbabilities_eq, heuristicProbabilitiesSpecRest_eq] at h2
  simp only [hscode, hsspec] at h2
  rw [abs_of_pos (by norm_num), abs_of_pos (by norm_num)] at h2
  rw [max_eq_right (by norm_num), max_eq_right (by norm_num)] at h2
  norm_num at h2

/-- C3 amended.  The heuristic outcome model computes
score = 0.0028·eloDiff + 0.85·ppgDiff + 0.25·recentPointsDiff +
0.02·restDiff where restDiff uses the flat value 7.0 for a side with no prior
match and the constant 5.0 otherwise (independent of days since the last
match); the triple is logistic(score)·(1−draw), draw, (1−logistic)·(1−draw)
with draw = max(0.14, 0.26 − 0.08·|score|), renormalized by its sum (which
is exactly 1). -/
theorem heuristic_formula_amended (home away : TeamState) :
    heuristicProbabilities home away =
      ((1 / (1 + Real.exp (-(0.0028 * (home.elo - away.elo) +
          0.85 * (safePpg home.seasonPoints home.seasonMatches -
            safePpg away.seasonPoints away.seasonMatches) +
          0.25 * (safeMean home.recentPoints - safeMean away.recentPoints) +
          0.02 * ((if home.lastMatchDate = none then (7 : ℝ) else 5) -
            (if away.lastMatchDate = none then (7 : ℝ) else 5)))))) *
        (1 - max 0.14 (0.26 - 0.08 * |0.0028 * (home.elo - away.elo) +
          0.85 * (safePpg home.seasonPoints home.seasonMatches -
            safePpg away.seasonPoints away.seasonMatches) +
          0.25 * (safeMean home.recentPoints - safeMean away.recentPoints) +
          0.02 * ((if home.lastMatchDate = none then (7 : ℝ) else 5) -
            (if away.lastMatchDate = none then (7 : ℝ) else 5))|)),
       max 0.14 (0.26 - 0.08 * |0.0028 * (home.elo - away.elo) +
          0.85 * (safePpg home.seasonPoints home.seasonMatches -
            safePpg away.seasonPoints away.seasonMatches) +
          0.25 * (safeMean home.recentPoints - safeMean away.recentPoints) +
          0.02 * ((if home.lastMatchDate = none then (7 : ℝ) else 5) -
            (if away.lastMatchDate = none then (7 : ℝ) else 5))|),
       (1 - 1 / (1 + Real.exp (-(0.0028 * (home.elo - away.elo) +
          0.85 * (safePpg home.seasonPoints home.seasonMatches -
            safePpg away.seasonPoints away.seasonMatches) +
          0.25 * (safeMean home.recentPoints - safeMean away.recentPoints) +
          0.02 * ((if home.lastMatchDate = none then (7 : ℝ) else 5) -
            (if away.lastMatchDate = none then (7 : ℝ) else 5)))))) *
        (1 - max 0.14 (0.26 - 0.08 * |0.0028 * (home.elo - away.elo) +
          0.85 * (safePpg home.seasonPoints home.seasonMatches -
            safePpg away.seasonPoints away.seasonMatches) +
          0.25 * (safeMean home.recentPoints - safeMean away.recentPoints) +
          0.02 * ((if home.lastMatchDate = none then (7 : ℝ) else 5) -
            (if away.lastMatchDate = none then (7 : ℝ) else 5))|))) := by
  rw [heuristicProbabilities_eq]
  rfl

/-! ### Determinism of the simulation -/

theorem iterate_chunks {α : Type} (f : α → α) (ws : List ℕ) (acc : α) :
    ws.foldl (fun a w => f^[w] a) acc = f^[ws.sum] acc := by
  induction ws generalizing acc with
  | nil => simp
  | cons w rest ih =>
      simp only [List.foldl_cons, List.sum_cons]
      rw [ih, ← Function.iterate_add_apply, Nat.add_comm]

/-- C2.  Simulation determinism: the whole simulation is a pure function of
the cleaned data, the replication count and the seed (given the deterministic
RNG primitives), so two runs with identical inputs give identical output
tables; and because the N replications are N applications of one step
function with the RNG state threaded through in replication order, splitting
them into worker chunks of any sizes summing to N (the only worker-pool
notion the sequential code admits) yields exactly the monolithic result, so
two partitions of different sizes agree.  The code has no per-replication
reseeding: a pool size only names a chunking of the same threaded sequence. -/
theorem simulation_determinism (Rng : Type)
    (choose : Rng → ℝ × ℝ × ℝ → MatchResult × Rng)
    (shuffle : Rng → List (String × String) → List (String × String) × Rng)
    (data : List MatchRow) (nSim : ℕ) (rng : Rng) :
    (∀ out1 out2 : Except String (List OutputRow),
      out1 = runChampionSimulation choose shuffle data nSim rng →
      out2 = runChampionSimulation choose shuffle data nSim rng → out1 = out2) ∧
    (∀ (ws : List ℕ) (teams : List String) (baseStates : Teams)
        (baseTable : String → TableEntry) (remaining : List (String × String))
        (lastDate : ℤ) (acc : SimTallies × Rng),
      ws.sum = nSim →
      ws.foldl (fun a w =>
        (runReplication choose shuffle teams baseStates baseTable remaining
          lastDate)^[w] a) acc =
      (runReplication choose shuffle teams baseStates baseTable remaining
        lastDate)^[nSim] acc) := by
  constructor
  · intro o1 o2 h1 h2
    rw [h1, h2]
  · intro ws teams baseStates baseTable remaining lastDate acc hsum
    rw [← hsum]
    exact iterate_chunks _ ws acc

theorem simulation_determinism_witness :
    (runChampionSimulation constChoose idShuffle ([] : List MatchRow) 2 () =
      runChampionSimulation constChoose idShuffle ([] : List MatchRow) 2 ()) ∧
    ([1, 1].foldl (fun a w =>
        (runReplication constChoose idShuffle [] (fun _ => {})
          (fun _ => emptyTableEntry) [] 0)^[w] a) (initTallies, ()) =
      (runReplication constChoose idShuffle [] (fun _ => {})
        (fun _ => emptyTableEntry) [] 0)^[2] (initTallies, ())) :=
  ⟨(simulation_determinism Unit constChoose idShuffle [] 2 ()).1 _ _ rfl rfl,
   (simulation_determinism Unit constChoose idShuffle [] 2 ()).2 [1, 1] []
     (fun _ => {}) (fun _ => emptyTableEntry) [] 0 (initTallies, ()) (by decide)⟩

/-! ### Failure semantics -/

def isOkE {ε α : Type} : Except ε α → Bool
  | .ok _ => true
  | .error _ => false

/-- Counterexample to C8 as stated: a nonempty latest-season history whose
single row pairs a team with itself leaves exactly one distinct team in
scope, yet the simulation completes and returns a table — no
fewer-than-2-teams precondition error is raised anywhere in the code. -/
theorem fewer_than_two_teams_counterexample :
    isOkE (runChampionSimulation constChoose idShuffle
      [⟨"E0", "2324", 2023, 100, "LONE", "LONE", 2, 1, .H⟩] 1 ()) = true := by
  simp [runChampionSimulation, isOkE]

/-- C8 amended.  The simulation signals the fatal no-data error (no partial
results) exactly when the cleaned match data is empty (then the latest-season
filter is empty); with nonempty data and N = 0 it fails with an unchecked
ZeroDivisionError at the aggregation division, so N ≥ 1 is required but never
validated as a precondition; with nonempty data and N ≥ 1 it always returns a
full result.  There is no explicit fewer-than-2-teams check (under the
cleaned-data guarantee that a row's two teams differ, fewer than 2 distinct
teams forces empty data, which the empty-data error covers). -/
theorem precondition_error_iff (Rng : Type)
    (choose : Rng → ℝ × ℝ × ℝ → MatchResult × Rng)
    (shuffle : Rng → List (String × String) → List (String × String) × Rng)
    (data : List MatchRow) (nSim : ℕ) (rng : Rng) :
    (runChampionSimulation choose shuffle data nSim rng =
      Except.error "No data for latest season simulation." ↔ data = []) ∧
    (data ≠ [] → nSim = 0 →
      runChampionSimulation choose shuffle data nSim rng =
        Except.error "ZeroDivisionError: division by zero") ∧
    (data ≠ [] → 1 ≤ nSim →
      isOkE (runChampionSimulation choose shuffle data nSim rng) = true) := by
  by_cases hdata : data = []
  · subst hdata
    simp [runChampionSimulation]
  · have hne : data.isEmpty = false := by
      simpa [List.isEmpty_iff] using hdata
    by_cases hn : nSim = 0
    · subst hn
      refine ⟨?_, fun _ _ => ?_, fun _ h1 => absurd h1 (by omega)⟩
      · constructor
        · intro h
          simp only [runChampionSimulation, hne, Bool.false_eq_true, if_false,
            if_pos rfl] at h
          have hs := Except.error.inj h
          exact absurd hs (by decide)
        · intro h
          exact absurd h hdata
      · simp [runChampionSimulation, hne]
    · refine ⟨?_, fun _ h0 => absurd h0 hn, fun _ _ => ?_⟩
      · constructor
        · intro h
          simp [runChampionSimulation, hne, hn] at h
        · intro h
          exact absurd h hdata
      · simp [runChampionSimulation, hne, hn, isOkE]

theorem precondition_error_iff_witness :
    (([⟨"E0", "2324", 2023, 100, "HOME", "AWAY", 2, 1, .H⟩] : List MatchRow) ≠ [] ∧
      (1 : ℕ) ≤ 3 ∧
      isOkE (runChampionSimulation constChoose idShuffle
        [⟨"E0", "2324", 2023, 100, "HOME", "AWAY", 2, 1, .H⟩] 3 ()) = true) ∧
    runChampionSimulation constChoose idShuffle
        [⟨"E0", "2324", 2023, 100, "HOME", "AWAY", 2, 1, .H⟩] 0 () =
      Except.error "ZeroDivisionError: division by zero" :=
  ⟨⟨by decide, by decide,
    (precondition_error_iff Unit constChoose idShuffle
      [⟨"E0", "2324", 2023, 100, "HOME", "AWAY", 2, 1, .H⟩] 3 ()).2.2
      (by decide) (by decide)⟩,
   (precondition_error_iff Unit constChoose idShuffle
     [⟨"E0", "2324", 2023, 100, "HOME", "AWAY", 2, 1, .H⟩] 0 ()).2.1
     (by decide) rfl⟩

/-! ### Aggregation arithmetic -/

theorem sum_map_add (l : List String) (f g : String → ℕ) :
    (l.map (fun x => f x + g x)).sum = (l.map f).sum + (l.map g).sum := by
  induction l with
  | nil => simp
  | cons x xs ih =>
      simp only [List.map_cons, List.sum_cons, ih]
      omega

theorem sum_indicator_zero (l : List String) (c : String) (hc : c ∉ l) :
    (l.map (fun t => if t = c then (1 : ℕ) else 0)).sum = 0 := by
  induction l with
  | nil => simp
  | cons x xs ih =>
      have hx : x ≠ c := fun h => hc (h ▸ List.mem_cons_self x xs)
      have hxs : c ∉ xs := fun h => hc (List.mem_cons_of_mem x h)
      simp [hx, ih hxs]

theorem sum_indicator_one (l : List String) (c : String) (hnd : l.Nodup) (hc : c ∈ l) :
    (l.map (fun t => if t = c then (1 : ℕ) else 0)).sum = 1 := by
  induction l with
  | nil => exact absurd hc (List.not_mem_nil c)
  | cons x xs ih =>
      rcases List.mem_cons.mp hc with h | hcx
      · have hnx : c ∉ xs := by
          rw [h]
          exact (List.nodup_cons.mp hnd).1
        simp [h.symm, sum_indicator_zero xs c hnx]
      · have hx : x ≠ c := by
          intro h
          exact (List.nodup_cons.mp hnd).1 (h ▸ hcx)
        simp [hx, ih (List.nodup_cons.mp hnd).2 hcx]

theorem sum_count_eq_length (l teams : List String) (hnd : teams.Nodup)
    (hsub : ∀ x ∈ l, x ∈ teams) :
    (teams.map (fun t => l.count t)).sum = l.length := by
  induction l with
  | nil => simp
  | cons x xs ih =>
      have hx : x ∈ teams := hsub x (List.mem_cons_self x xs)
      have hxs : ∀ y ∈ xs, y ∈ teams := fun y hy => hsub y (List.mem_cons_of_mem x hy)
      have hmap : teams.map (fun t => (x :: xs).count t) =
          teams.map (fun t => xs.count t + (if t = x then 1 else 0)) := by
        apply List.map_congr_left
        intro t ht
        rw [List.count_cons]
        rcases eq_or_ne t x with h | h
        · simp [h]
        · simp [h, Ne.symm h]
      rw [hmap, sum_map_add, ih hxs, sum_indicator_one teams x hnd hx]
      simp

theorem sum_map_div (l : List String) (f : String → ℚ) (c : ℚ) :
    (l.map (fun x => f x / c)).sum = (l.map f).sum / c := by
  induction l with
  | nil => simp
  | cons x xs ih => simp [ih, add_div]

theorem sum_map_natCast (l : List String) (f : String → ℕ) :
    (l.map (fun x => ((f x : ℕ) : ℚ))).sum = (((l.map f).sum : ℕ) : ℚ) := by
  induction l with
  | nil => simp
  | cons x xs ih => simp [ih]

theorem updateFn_add_one (f : String → ℕ) (c t : String) :
    updateFn f c (fun x => x + 1) t = f t + (if t = c then 1 else 0) := by
  unfold updateFn
  split <;> simp

theorem headD_mem {α : Type} (l : List α) (d : α) (h : l ≠ []) : l.headD d ∈ l := by
  cases l with
  | nil => exact absurd rfl h
  | cons x xs => simp

theorem applyTableResult_points (table : String → TableEntry) (home away : String)
    (hp ap hg ag : ℕ) (t : String) :
    (applyTableResult table home away hp ap hg ag t).points =
      (table t).points + (if t = home then hp else 0) + (if t = away then ap else 0) := by
  simp only [applyTableResult, updateFn]
  split_ifs <;> simp

theorem applyTableResult_points_le (table : String → TableEntry) (home away : String)
    (hp ap hg ag : ℕ) (t : String) :
    (table t).points ≤ (applyTableResult table home away hp ap hg ag t).points := by
  rw [applyTableResult_points]
  split_ifs <;> omega

theorem fixtureFold_points_le {Rng : Type}
    (choose : Rng → ℝ × ℝ × ℝ → MatchResult × Rng)
    (fxs : List (String × String)) (start : FixtureLoopState Rng) (t : String) :
    (start.table t).points ≤ ((fxs.foldl (simulateFixture choose) start).table t).points := by
  induction fxs generalizing start with
  | nil => exact le_refl _
  | cons fx rest ih =>
      refine le_trans ?_ (ih (simulateFixture choose start fx))
      exact applyTableResult_points_le start.table fx.1 fx.2 _ _ _ _ t

theorem sum_map_zero (l : List String) : (l.map (fun _ => (0 : ℕ))).sum = 0 := by
  induction l with
  | nil => simp
  | cons x xs ih => simp [ih]

theorem sortedTeams_nodup (rows : List MatchRow) : (sortedTeams rows).Nodup :=
  ((sortBy_perm strLe _).nodup_iff).mpr (List.nodup_dedup _)

theorem sortedTeams_ne_nil (rows : List MatchRow) (h : rows ≠ []) :
    sortedTeams rows ≠ [] := by
  intro hnil
  have hperm := sortBy_perm strLe
    ((rows.map (fun r => r.homeTeam) ++ rows.map (fun r => r.awayTeam)).dedup)
  rw [sortedTeams] at hnil
  rw [hnil] at hperm
  have hded : (rows.map (fun r => r.homeTeam) ++
      rows.map (fun r => r.awayTeam)).dedup = [] := hperm.symm.eq_nil
  have happ := (List.dedup_eq_nil _).mp hded
  rcases List.append_eq_nil.mp happ with ⟨hmap, _⟩
  exact h (List.map_eq_nil.mp hmap)

/-- The accumulated tallies after k replications. -/
def talliesInv (teams : List String) (baseTable : String → TableEntry) (k : ℕ)
    (tal : SimTallies) : Prop :=
  (teams.map (fun t => tal.championCount t)).sum = k ∧
  (∀ t, tal.top3Count t ≤ k) ∧
  (teams.map (fun t => tal.top3Count t)).sum = k * min 3 teams.length ∧
  (∀ t, k * (baseTable t).points ≤ tal.pointsSum t)

theorem talliesInv_zero (teams : List String) (baseTable : String → TableEntry) :
    talliesInv teams baseTable 0 initTallies := by
  refine ⟨?_, fun t => le_refl 0, ?_, fun t => by simp [initTallies]⟩
  · exact sum_map_zero teams
  · rw [Nat.zero_mul]
    exact sum_map_zero teams

theorem talliesInv_step {Rng : Type}
    (choose : Rng → ℝ × ℝ × ℝ → MatchResult × Rng)
    (shuffle : Rng → List (String × String) → List (String × String) × Rng)
    (teams : List String) (baseStates : Teams) (baseTable : String → TableEntry)
    (remaining : List (String × String)) (lastDate : ℤ)
    (hne : teams ≠ []) (hnd : teams.Nodup) (k : ℕ) (acc : SimTallies × Rng)
    (h : talliesInv teams baseTable k acc.1) :
    talliesInv teams baseTable (k + 1)
      ((runReplication choose shuffle teams baseStates baseTable remaining lastDate)
        acc).1 := by
  obtain ⟨h1, h2, h3, h4⟩ := h
  simp only [runReplication]
  set sh := shuffle acc.2 remaining with hsh
  set final := sh.1.foldl (simulateFixture choose)
    ⟨baseStates, baseTable, sh.2, lastDate + 2⟩ with hfinal
  set ranking := rankTeams (fun t => rankKey (final.table t)) teams with hranking
  set champion := ranking.headD "" with hchampion
  have hperm : ranking.Perm teams := sortBy_perm _ _
  have hrne : ranking ≠ [] := by
    intro hnil
    have hlen := hperm.length_eq
    rw [hnil] at hlen
    exact hne (List.length_eq_zero.mp hlen.symm)
  have hchamp_mem : champion ∈ teams :=
    hperm.mem_iff.mp (headD_mem ranking "" hrne)
  have hrnd : ranking.Nodup := (hperm.nodup_iff).mpr hnd
  have htake_nd : (ranking.take 3).Nodup :=
    (List.take_sublist 3 ranking).nodup hrnd
  have htake_sub : ∀ x ∈ ranking.take 3, x ∈ teams := fun x hx =>
    hperm.mem_iff.mp (List.take_subset 3 ranking hx)
  refine ⟨?_, ?_, ?_, ?_⟩
  · have hmap : teams.map
        (fun t => updateFn acc.1.championCount champion (fun c => c + 1) t) =
        teams.map (fun t => acc.1.championCount t + (if t = champion then 1 else 0)) :=
      List.map_congr_left (fun t ht => updateFn_add_one _ _ _)
    rw [hmap, sum_map_add, h1, sum_indicator_one teams champion hnd hchamp_mem]
  · intro t
    have hcle : (ranking.take 3).count t ≤ 1 :=
      List.nodup_iff_count_le_one.mp htake_nd t
    exact add_le_add (h2 t) hcle
  · rw [sum_map_add, h3, sum_count_eq_length (ranking.take 3) teams hnd htake_sub]
    rw [List.length_take, hperm.length_eq]
    ring
  · intro t
    have hmono : (baseTable t).points ≤ (final.table t).points := by
      have hfold := fixtureFold_points_le choose sh.1
        ⟨baseStates, baseTable, sh.2, lastDate + 2⟩ t
      simpa [hfinal] using hfold
    calc (k + 1) * (baseTable t).points
        = k * (baseTable t).points + (baseTable t).points := by ring
      _ ≤ acc.1.pointsSum t + (final.table t).points := add_le_add (h4 t) hmono

theorem talliesInv_iterate {Rng : Type}
    (choose : Rng → ℝ × ℝ × ℝ → MatchResult × Rng)
    (shuffle : Rng → List (String × String) → List (String × String) × Rng)
    (teams : List String) (baseStates : Teams) (baseTable : String → TableEntry)
    (remaining : List (String × String)) (lastDate : ℤ)
    (hne : teams ≠ []) (hnd : teams.Nodup) (k : ℕ) (rng : Rng) :
    talliesInv teams baseTable k
      (((runReplication choose shuffle teams baseStates baseTable remaining
        lastDate)^[k]) (initTallies, rng)).1 := by
  induction k with
  | zero => exact talliesInv_zero teams baseTable
  | succ n ih =>
      rw [Function.iterate_succ_apply']
      exact talliesInv_step choose shuffle teams baseStates baseTable remaining
        lastDate hne hnd n _ ih

/-- The tallies accumulated by `_league_simulation` after all replications. -/
noncomputable def leagueTallies {Rng : Type}
    (choose : Rng → ℝ × ℝ × ℝ → MatchResult × Rng)
    (shuffle : Rng → List (String × String) → List (String × String) × Rng)
    (rows : List MatchRow) (nSim : ℕ) (rng : Rng) : SimTallies :=
  ((runReplication choose shuffle (sortedTeams rows) (initStateAndTable rows).1
      (initStateAndTable rows).2
      ((allFixtures (sortedTeams rows)).filter (fun fx => decide (fx ∉ playedPairs rows)))
      (maxMatchDate rows))^[nSim] (initTallies, rng)).1

/-- The output row `_league_simulation` emits for one team. -/
noncomputable def leagueRow {Rng : Type}
    (choose : Rng → ℝ × ℝ × ℝ → MatchResult × Rng)
    (shuffle : Rng → List (String × String) → List (String × String) × Rng)
    (rows : List MatchRow) (nSim : ℕ) (rng : Rng) (team : String) : OutputRow where
  leagueCode := (rows.headD ⟨"", "", 0, 0, "", "", 0, 0, .D⟩).leagueCode
  team := team
  championProbability :=
    ((leagueTallies choose shuffle rows nSim rng).championCount team : ℚ) / (nSim : ℚ)
  top3Probability :=
    ((leagueTallies choose shuffle rows nSim rng).top3Count team : ℚ) / (nSim : ℚ)
  expectedPoints :=
    ((leagueTallies choose shuffle rows nSim rng).pointsSum team : ℚ) / (nSim : ℚ)

theorem leagueSimulation_fst {Rng : Type}
    (choose : Rng → ℝ × ℝ × ℝ → MatchResult × Rng)
    (shuffle : Rng → List (String × String) → List (String × String) × Rng)
    (rows : List MatchRow) (nSim : ℕ) (rng : Rng) :
    (leagueSimulation choose shuffle rows nSim rng).1 =
      sortBy (fun r s => decide (s.championProbability ≤ r.championProbability))
        ((sortedTeams rows).map (leagueRow choose shuffle rows nSim rng)) := rfl

/-- C10.  Output-table invariants of a league simulation with nonempty input
and N ≥ 1 replications: the champion probabilities over the league's teams
sum to exactly 1; every top-3 probability lies in [0, 1] and they sum to
min(3, number of teams); and every team's expected points (the accumulated
final points over the N replications divided by N) is at least its base-table
points, because a replication only ever adds points to the cloned table. -/
theorem output_table_invariants (Rng : Type)
    (choose : Rng → ℝ × ℝ × ℝ → MatchResult × Rng)
    (shuffle : Rng → List (String × String) → List (String × String) × Rng)
    (rows : List MatchRow) (nSim : ℕ) (rng : Rng)
    (hrows : rows ≠ []) (hn : 1 ≤ nSim) :
    (((leagueSimulation choose shuffle rows nSim rng).1.map
        (fun r => r.championProbability)).sum = 1) ∧
    (∀ r ∈ (leagueSimulation choose shuffle rows nSim rng).1,
        0 ≤ r.top3Probability ∧ r.top3Probability ≤ 1) ∧
    (((leagueSimulation choose shuffle rows nSim rng).1.map
        (fun r => r.top3Probability)).sum = ((min 3 (sortedTeams rows).length : ℕ) : ℚ)) ∧
    (∀ r ∈ (leagueSimulation choose shuffle rows nSim rng).1,
        (((initStateAndTable rows).2 r.team).points : ℚ) ≤ r.expectedPoints) := by
  have hnd := sortedTeams_nodup rows
  have hne := sortedTeams_ne_nil rows hrows
  have hpos : 0 < nSim := hn
  have hnpos : (0 : ℚ) < (nSim : ℚ) := by exact_mod_cast hpos
  have hn0 : ((nSim : ℚ)) ≠ 0 := ne_of_gt hnpos
  have hinv : talliesInv (sortedTeams rows) (initStateAndTable rows).2 nSim
      (leagueTallies choose shuffle rows nSim rng) :=
    talliesInv_iterate choose shuffle (sortedTeams rows) (initStateAndTable rows).1
      (initStateAndTable rows).2
      ((allFixtures (sortedTeams rows)).filter (fun fx => decide (fx ∉ playedPairs rows)))
      (maxMatchDate rows) hne hnd nSim rng
  obtain ⟨h1, h2, h3, h4⟩ := hinv
  rw [leagueSimulation_fst choose shuffle rows nSim rng]
  have hperm : (sortBy (fun r s => decide (s.championProbability ≤ r.championProbability))
      ((sortedTeams rows).map (leagueRow choose shuffle rows nSim rng))).Perm
        ((sortedTeams rows).map (leagueRow choose shuffle rows nSim rng)) :=
    sortBy_perm _ _
  have hmem : ∀ r ∈ sortBy (fun r s => decide (s.championProbability ≤ r.championProbability))
      ((sortedTeams rows).map (leagueRow choose shuffle rows nSim rng)),
      ∃ t ∈ sortedTeams rows, leagueRow choose shuffle rows nSim rng t = r := by
    intro r hr
    exact List.mem_map.mp (hperm.mem_iff.mp hr)
  refine ⟨?_, ?_, ?_, ?_⟩
  · rw [(hperm.map (fun r => r.championProbability)).sum_eq, List.map_map]
    have hcomp : (sortedTeams rows).map
        ((fun r : OutputRow => r.championProbability) ∘ leagueRow choose shuffle rows nSim rng) =
        (sortedTeams rows).map (fun t =>
          ((leagueTallies choose shuffle rows nSim rng).championCount t : ℚ) / (nSim : ℚ)) := rfl
    rw [hcomp, sum_map_div, sum_map_natCast, h1]
    exact div_self hn0
  · intro r hr
    obtain ⟨t, ht, rfl⟩ := hmem r hr
    constructor
    · exact div_nonneg (Nat.cast_nonneg _) (le_of_lt hnpos)
    · show ((leagueTallies choose shuffle rows nSim rng).top3Count t : ℚ) / (nSim : ℚ) ≤ 1
      rw [div_le_one hnpos]
      exact_mod_cast h2 t
  · rw [(hperm.map (fun r => r.top3Probability)).sum_eq, List.map_map]
    have hcomp : (sortedTeams rows).map
        ((fun r : OutputRow => r.top3Probability) ∘ leagueRow choose shuffle rows nSim rng) =
        (sortedTeams rows).map (fun t =>
          ((leagueTallies choose shuffle rows nSim rng).top3Count t : ℚ) / (nSim : ℚ)) := rfl
    rw [hcomp, sum_map_div, sum_map_natCast, h3]
    push_cast
    rw [mul_comm, mul_div_assoc, div_self hn0, mul_one]
  · intro r hr
    obtain ⟨t, ht, rfl⟩ := hmem r hr
    show (((initStateAndTable rows).2 t).points : ℚ) ≤
      ((leagueTallies choose shuffle rows nSim rng).pointsSum t : ℚ) / (nSim : ℚ)
    rw [le_div_iff hnpos]
    have hq : (nSim * (((initStateAndTable rows).2 t).points) : ℕ) ≤
        (leagueTallies choose shuffle rows nSim rng).pointsSum t := h4 t
    calc (((initStateAndTable rows).2 t).points : ℚ) * (nSim : ℚ)
        = ((nSim * ((initStateAndTable rows).2 t).points : ℕ) : ℚ) := by push_cast; ring
      _ ≤ ((leagueTallies choose shuffle rows nSim rng).pointsSum t : ℚ) := by
          exact_mod_cast hq

theorem output_table_invariants_witness :
    (([⟨"E0", "2324", 2023, 100, "HOME", "AWAY", 2, 1, .H⟩] : List MatchRow) ≠ [] ∧
      (1 : ℕ) ≤ 1) ∧
    ((leagueSimulation constChoose idShuffle
        [⟨"E0", "2324", 2023, 100, "HOME", "AWAY", 2, 1, .H⟩] 1 ()).1.map
      (fun r => r.championProbability)).sum = 1 :=
  ⟨⟨by decide, by decide⟩,
   (output_table_invariants Unit constChoose idShuffle
     [⟨"E0", "2324", 2023, 100, "HOME", "AWAY", 2, 1, .H⟩] 1 ()
     (by decide) (by decide)).1⟩

end FootballBI
